import Mathlib

/-!
Verification development for the DMOR trading core.

The implemented resilient request layer lives in `src/lib/trading/exchange.ts`
(class `ExchangeAPI`: `retryWithBackoff`, `handleError`, and the public
operations `fetchBalance`, `fetchPrice`, `createOrder`, `createStopLoss`,
`createTakeProfit`, `cancelOrder`, `fetchOpenOrders`, `fetchOrder`,
`fetchPositions`).  The risk manager, position monitor and serialization
queue are designed in `docs/AUTO_TRADING_IMPLEMENTATION_PLAN.md` and the
specification but are not implemented as modules; those parts are modelled
from the spec, as marked on each definition.
-/

namespace DMOR

/--
An error value thrown by an exchange adapter call.  `exchange.ts` classifies
errors purely by scanning `error.message` for substrings; the Boolean fields
record, for one concrete error, which of the scanned substrings its message
contains: `'Invalid API-key'`, `'Signature'`, `'Timestamp'`, `'IP'`,
`'insufficient balance'`, `'rate limit'`.  `tag` distinguishes otherwise
identical messages.
-/
structure ErrMsg where
  invalidApiKey : Bool
  hasSignatureWord : Bool
  hasTimestampWord : Bool
  hasIPWord : Bool
  insufficientBalance : Bool
  rateLimit : Bool
  tag : Nat
  deriving DecidableEq, Repr

/-- Outcome of `retryWithBackoff` when it does not return a value: either the
last caught error is rethrown, or the final `throw new Error('Max retries
exceeded')` is reached (only possible when `maxRetries = 0`). -/
inductive RetryErr where
  | thrown (e : ErrMsg)
  | maxRetriesExceeded
  deriving DecidableEq, Repr

instance {ε α : Type} [DecidableEq ε] [DecidableEq α] : DecidableEq (Except ε α) :=
  fun x y =>
    match x, y with
    | .ok a, .ok b => if h : a = b then .isTrue (by simp [h]) else .isFalse (by simp [h])
    | .error a, .error b => if h : a = b then .isTrue (by simp [h]) else .isFalse (by simp [h])
    | .ok _, .error _ => .isFalse (by simp)
    | .error _, .ok _ => .isFalse (by simp)

/-- Observable outcome of one run of `retryWithBackoff`: the value returned
or error thrown, how many times the wrapped `fn` was invoked, and the list of
sleep durations (ms) performed, in order. -/
structure RetryResult (α : Type) where
  result : Except RetryErr α
  calls : Nat
  sleeps : List Nat
  deriving DecidableEq, Repr

/--
The body of the `for (let i = 0; i < maxRetries; i++)` loop of
`retryWithBackoff` (`exchange.ts:391-431`).  `fn j` is the outcome of the
`(j+1)`-th invocation of the wrapped thunk.  The argument `left` is the fuel
`maxRetries - i`, so `left = 0` is loop exit (reaching
`throw new Error('Max retries exceeded')`).  Branches, in source order:
return on success; rethrow on `'Invalid API-key'`/`'Signature'`; rethrow on
`'insufficient balance'`; rethrow on the last attempt; sleep 60000 and
`continue` on `'rate limit'`; otherwise sleep `baseDelay * 2^i` and loop.
-/
def retryLoop {α : Type} (fn : Nat → Except ErrMsg α) (maxRetries baseDelay : Nat) :
    Nat → Nat → List Nat → RetryResult α
  | 0, i, sleeps => ⟨.error .maxRetriesExceeded, i, sleeps⟩
  | left + 1, i, sleeps =>
    match fn i with
    | .ok v => ⟨.ok v, i + 1, sleeps⟩
    | .error e =>
      if e.invalidApiKey || e.hasSignatureWord then ⟨.error (.thrown e), i + 1, sleeps⟩
      else if e.insufficientBalance then ⟨.error (.thrown e), i + 1, sleeps⟩
      else if i = maxRetries - 1 then ⟨.error (.thrown e), i + 1, sleeps⟩
      else if e.rateLimit then
        retryLoop fn maxRetries baseDelay left (i + 1) (sleeps ++ [60000])
      else
        retryLoop fn maxRetries baseDelay left (i + 1) (sleeps ++ [baseDelay * 2 ^ i])

/-- Source function `retryWithBackoff(fn, maxRetries = 3, baseDelay = 1000)` from
`exchange.ts:391-431`, as a function of the per-invocation behaviour of the
wrapped thunk. -/
def retryWithBackoff {α : Type} (fn : Nat → Except ErrMsg α)
    (maxRetries baseDelay : Nat) : RetryResult α :=
  retryLoop fn maxRetries baseDelay maxRetries 0 []

/-- A transient (retryable, non-rate-limit) error: its message contains none
of the substrings `retryWithBackoff` scans for. -/
def transientErr : ErrMsg := ⟨false, false, false, false, false, false, 1⟩

/-- C1: with the default parameters `maxRetries = 3`, `baseDelay = 1000` ms,
a call that fails twice with a transient (retryable, non-rate-limit) error
and succeeds on the third attempt returns the third attempt's value after
invoking the wrapped function exactly three times, sleeping `baseDelay` before
the second attempt and `2 × baseDelay` before the third (1 s + 2 s of total
backoff). -/
theorem retry_two_transient_failures_then_success {α : Type}
    (fn : Nat → Except ErrMsg α) (e0 e1 : ErrMsg) (v : α)
    (h0 : fn 0 = .error e0) (h1 : fn 1 = .error e1) (h2 : fn 2 = .ok v)
    (he0 : e0.invalidApiKey = false ∧ e0.hasSignatureWord = false ∧
      e0.insufficientBalance = false ∧ e0.rateLimit = false)
    (he1 : e1.invalidApiKey = false ∧ e1.hasSignatureWord = false ∧
      e1.insufficientBalance = false ∧ e1.rateLimit = false) :
    retryWithBackoff fn 3 1000 = ⟨.ok v, 3, [1000, 2000]⟩ := by
  obtain ⟨a0, b0, c0, d0⟩ := he0
  obtain ⟨a1, b1, c1, d1⟩ := he1
  simp [retryWithBackoff, retryLoop, h0, h1, h2, a0, b0, c0, d0, a1, b1, c1, d1]

/-- Concrete witness behaviour for C1: transient failures on the first two
attempts, success with value 42 on the third. -/
def fnTwoTransientThenOk : Nat → Except ErrMsg Nat :=
  fun i => if i < 2 then .error transientErr else .ok 42

/-- Witness for C1 at the concrete behaviour `fnTwoTransientThenOk`. -/
theorem retry_two_transient_failures_then_success_witness :
    retryWithBackoff fnTwoTransientThenOk 3 1000 = ⟨.ok 42, 3, [1000, 2000]⟩ :=
  retry_two_transient_failures_then_success fnTwoTransientThenOk
    transientErr transientErr 42 rfl rfl rfl
    ⟨rfl, rfl, rfl, rfl⟩ ⟨rfl, rfl, rfl, rfl⟩

/-- A malformed-request error (e.g. an invalid symbol or lot-size filter
failure): its message contains none of the substrings `retryWithBackoff`
scans for, so it is indistinguishable from a transient error to the layer. -/
def malformedRequestErr : ErrMsg := ⟨false, false, false, false, false, false, 7⟩

/-- Behaviour that fails with a malformed-request error on every attempt. -/
def fnMalformedRequest : Nat → Except ErrMsg Nat := fun _ => .error malformedRequestErr

/-- C2 counterexample: a call that keeps failing with a malformed-request
error is NOT rethrown immediately after the first attempt: `retryWithBackoff`
invokes the wrapped function three times and sleeps 1000 ms and 2000 ms in
between, because the layer only short-circuits on the substrings
`'Invalid API-key'`, `'Signature'` and `'insufficient balance'` — no
malformed-request check exists. -/
theorem retry_malformed_request_is_retried :
    retryWithBackoff fnMalformedRequest 3 1000 =
      ⟨.error (.thrown malformedRequestErr), 3, [1000, 2000]⟩ ∧
    (retryWithBackoff fnMalformedRequest 3 1000).calls ≠ 1 ∧
    (retryWithBackoff fnMalformedRequest 3 1000).sleeps ≠ [] := by
  refine ⟨by decide, by decide, by decide⟩

/-- C2 (amended): a first-attempt failure whose message contains
`'Invalid API-key'` or `'Signature'` (authentication failure) or
`'insufficient balance'` is rethrown immediately: exactly one invocation of
the wrapped function and no sleeps, for any positive `maxRetries`. -/
theorem retry_nonretryable_aborts_immediately {α : Type}
    (fn : Nat → Except ErrMsg α) (e : ErrMsg) (maxRetries baseDelay : Nat)
    (hpos : 0 < maxRetries) (h0 : fn 0 = .error e)
    (habort : (e.invalidApiKey || e.hasSignatureWord) = true ∨
      e.insufficientBalance = true) :
    retryWithBackoff fn maxRetries baseDelay = ⟨.error (.thrown e), 1, []⟩ := by
  obtain ⟨m, rfl⟩ := Nat.exists_eq_add_of_lt hpos
  rcases habort with h | h
  · rcases (Bool.or_eq_true _ _).mp h with h' | h' <;>
      simp [retryWithBackoff, retryLoop, h0, h', Nat.add_comm]
  · simp [retryWithBackoff, retryLoop, h0, h, Nat.add_comm]

/-- An authentication error: its message contains `'Invalid API-key'`. -/
def authErr : ErrMsg := ⟨true, false, false, false, false, false, 2⟩

/-- An insufficient-balance error: its message contains
`'insufficient balance'`. -/
def insufficientBalanceErr : ErrMsg := ⟨false, false, false, false, true, false, 4⟩

/-- Behaviour that fails with an authentication error on every attempt. -/
def fnAuthFail : Nat → Except ErrMsg Nat := fun _ => .error authErr

/-- Behaviour that fails with an insufficient-balance error on every
attempt. -/
def fnBalanceFail : Nat → Except ErrMsg Nat := fun _ => .error insufficientBalanceErr

/-- Witness for the amended C2 at the concrete behaviours `fnAuthFail` and
`fnBalanceFail`, with the default parameters. -/
theorem retry_nonretryable_aborts_immediately_witness :
    retryWithBackoff fnAuthFail 3 1000 = ⟨.error (.thrown authErr), 1, []⟩ ∧
    retryWithBackoff fnBalanceFail 3 1000 =
      ⟨.error (.thrown insufficientBalanceErr), 1, []⟩ :=
  ⟨retry_nonretryable_aborts_immediately fnAuthFail authErr 3 1000
      (by decide) rfl (.inl rfl),
    retry_nonretryable_aborts_immediately fnBalanceFail insufficientBalanceErr 3 1000
      (by decide) rfl (.inr rfl)⟩

/-- A rate-limit error: its message contains `'rate limit'`. -/
def rateLimitErr : ErrMsg := ⟨false, false, false, false, false, true, 3⟩

/-- Behaviour that rate-limits on the first two attempts and succeeds on the
third. -/
def fnRateLimitedTwiceThenOk : Nat → Except ErrMsg Nat :=
  fun i => if i < 2 then .error rateLimitErr else .ok 42

/-- Behaviour that rate-limits on the first attempt and fails with a
transient error on every later attempt. -/
def fnRateLimitThenTransient : Nat → Except ErrMsg Nat :=
  fun i => if i = 0 then .error rateLimitErr else .error transientErr

/-- C3 counterexample: rate-limit retries are NOT independent of the normal
retry budget and are not limited to one.  (a) A call that rate-limits on the
first two attempts is retried twice (not once) and the rate-limit error is
not surfaced even though the retry also rate-limited: the third attempt runs
and its value 42 is returned.  (b) After one rate-limit retry, only one
backoff attempt remains before the budget is exhausted: a rate-limit failure
followed by transient failures throws after 3 total invocations, showing the
rate-limit retry consumed an attempt of `maxRetries = 3`. -/
theorem retry_rate_limit_consumes_budget :
    retryWithBackoff fnRateLimitedTwiceThenOk 3 1000 = ⟨.ok 42, 3, [60000, 60000]⟩ ∧
    retryWithBackoff fnRateLimitThenTransient 3 1000 =
      ⟨.error (.thrown transientErr), 3, [60000, 2000]⟩ := by
  refine ⟨by decide, by decide⟩

/-- C3 (amended): with the defaults (`maxRetries = 3`, 60 s cooldown), a
rate-limit failure on a non-final attempt sleeps 60000 ms and retries, but
each such retry consumes an attempt of the same `maxRetries` budget — so up
to two rate-limit retries occur — and a rate-limit error is surfaced exactly
when it strikes the final attempt: two rate-limits then a success return the
success, while three rate-limits rethrow the rate-limit error after the
third invocation. -/
theorem retry_rate_limit_within_budget {α : Type}
    (fn : Nat → Except ErrMsg α) (e : ErrMsg) (v : α) (baseDelay : Nat)
    (hak : e.invalidApiKey = false) (hsig : e.hasSignatureWord = false)
    (hib : e.insufficientBalance = false) (hrl : e.rateLimit = true)
    (h0 : fn 0 = .error e) (h1 : fn 1 = .error e) :
    (fn 2 = .ok v → retryWithBackoff fn 3 baseDelay = ⟨.ok v, 3, [60000, 60000]⟩) ∧
    (fn 2 = .error e → retryWithBackoff fn 3 baseDelay =
      ⟨.error (.thrown e), 3, [60000, 60000]⟩) := by
  constructor <;> intro h2 <;>
    simp [retryWithBackoff, retryLoop, h0, h1, h2, hak, hsig, hib, hrl]

/-- Behaviour that rate-limits on every attempt. -/
def fnAlwaysRateLimited : Nat → Except ErrMsg Nat := fun _ => .error rateLimitErr

/-- Witness for the amended C3 at the concrete behaviours
`fnRateLimitedTwiceThenOk` and `fnAlwaysRateLimited`. -/
theorem retry_rate_limit_within_budget_witness :
    retryWithBackoff fnRateLimitedTwiceThenOk 3 1000 = ⟨.ok 42, 3, [60000, 60000]⟩ ∧
    retryWithBackoff fnAlwaysRateLimited 3 1000 =
      ⟨.error (.thrown rateLimitErr), 3, [60000, 60000]⟩ :=
  ⟨(retry_rate_limit_within_budget fnRateLimitedTwiceThenOk rateLimitErr 42 1000
      rfl rfl rfl rfl rfl rfl).1 rfl,
    (retry_rate_limit_within_budget fnAlwaysRateLimited rateLimitErr 0 1000
      rfl rfl rfl rfl rfl rfl).2 rfl⟩

/-- Loop invariant of `retryLoop`: started at index `i` with fuel `left` and
accumulated sleeps `sl`, it invokes `fn` on indices `i, i+1, ...` only — at
most `left` more times — adds at most `left` sleeps, and when it returns
`.ok v` that value is the outcome of the last invocation while every earlier
invocation from `i` on failed. -/
theorem retryLoop_bound {α : Type} (fn : Nat → Except ErrMsg α) (m d : Nat) :
    ∀ (left i : Nat) (sl : List Nat),
      (retryLoop fn m d left i sl).calls ≤ i + left ∧
      (retryLoop fn m d left i sl).sleeps.length ≤ sl.length + left ∧
      ∀ v, (retryLoop fn m d left i sl).result = .ok v →
        i < (retryLoop fn m d left i sl).calls ∧
        fn ((retryLoop fn m d left i sl).calls - 1) = .ok v ∧
        ∀ k, i ≤ k → k + 1 < (retryLoop fn m d left i sl).calls →
          ∃ e, fn k = .error e := by
  intro left
  induction left with
  | zero =>
    intro i sl
    refine ⟨by simp [retryLoop], by simp [retryLoop], ?_⟩
    intro v hv
    simp [retryLoop] at hv
  | succ n ih =>
    intro i sl
    cases hfn : fn i with
    | ok v =>
      have heq : retryLoop fn m d (n + 1) i sl = ⟨.ok v, i + 1, sl⟩ := by
        simp only [retryLoop, hfn]
      rw [heq]
      refine ⟨by dsimp only; omega, by dsimp only; omega, ?_⟩
      intro w hw
      cases hw
      refine ⟨by dsimp only; omega, by simpa using hfn, ?_⟩
      intro k hk hk2
      dsimp only at hk2
      omega
    | error e =>
      by_cases h1 : (e.invalidApiKey || e.hasSignatureWord) = true
      · have heq : retryLoop fn m d (n + 1) i sl = ⟨.error (.thrown e), i + 1, sl⟩ := by
          simp only [retryLoop, hfn]
          rw [if_pos h1]
        rw [heq]
        refine ⟨by dsimp only; omega, by dsimp only; omega, ?_⟩
        intro v hv
        simp at hv
      · by_cases h2 : e.insufficientBalance = true
        · have heq : retryLoop fn m d (n + 1) i sl = ⟨.error (.thrown e), i + 1, sl⟩ := by
            simp only [retryLoop, hfn]
            rw [if_neg h1, if_pos h2]
          rw [heq]
          refine ⟨by dsimp only; omega, by dsimp only; omega, ?_⟩
          intro v hv
          simp at hv
        · by_cases h3 : i = m - 1
          · have heq : retryLoop fn m d (n + 1) i sl = ⟨.error (.thrown e), i + 1, sl⟩ := by
              simp only [retryLoop, hfn]
              rw [if_neg h1, if_neg h2, if_pos h3]
            rw [heq]
            refine ⟨by dsimp only; omega, by dsimp only; omega, ?_⟩
            intro v hv
            simp at hv
          · by_cases h4 : e.rateLimit = true
            · have heq : retryLoop fn m d (n + 1) i sl =
                  retryLoop fn m d n (i + 1) (sl ++ [60000]) := by
                simp only [retryLoop, hfn]
                rw [if_neg h1, if_neg h2, if_neg h3, if_pos h4]
              rw [heq]
              obtain ⟨hc, hs, hok⟩ := ih (i + 1) (sl ++ [60000])
              refine ⟨by omega, by simp at hs; omega, ?_⟩
              intro v hv
              obtain ⟨hlt, hlast, hall⟩ := hok v hv
              refine ⟨by omega, hlast, ?_⟩
              intro k hk hk2
              rcases Nat.eq_or_lt_of_le hk with h | h
              · exact ⟨e, h ▸ hfn⟩
              · exact hall k h hk2
            · have heq : retryLoop fn m d (n + 1) i sl =
                  retryLoop fn m d n (i + 1) (sl ++ [d * 2 ^ i]) := by
                simp only [retryLoop, hfn]
                rw [if_neg h1, if_neg h2, if_neg h3, if_neg h4]
              rw [heq]
              obtain ⟨hc, hs, hok⟩ := ih (i + 1) (sl ++ [d * 2 ^ i])
              refine ⟨by omega, by simp at hs; omega, ?_⟩
              intro v hv
              obtain ⟨hlt, hlast, hall⟩ := hok v hv
              refine ⟨by omega, hlast, ?_⟩
              intro k hk hk2
              rcases Nat.eq_or_lt_of_le hk with h | h
              · exact ⟨e, h ▸ hfn⟩
              · exact hall k h hk2

/-- C10: with `maxRetries = 3`, `retryWithBackoff` invokes the wrapped
function at most 3 times in total (rate-limited attempts included), performs
at most 3 sleeps, and when it returns a value that value is the result of
its last invocation of `fn` while every earlier invocation failed (the first
successful result); being a total function of the behaviour, every run
terminates with either this value or a rethrown error. -/
theorem retry_terminates_within_budget {α : Type}
    (fn : Nat → Except ErrMsg α) (baseDelay : Nat) :
    (retryWithBackoff fn 3 baseDelay).calls ≤ 3 ∧
    (retryWithBackoff fn 3 baseDelay).sleeps.length ≤ 3 ∧
    ∀ v, (retryWithBackoff fn 3 baseDelay).result = .ok v →
      fn ((retryWithBackoff fn 3 baseDelay).calls - 1) = .ok v ∧
      ∀ k, k + 1 < (retryWithBackoff fn 3 baseDelay).calls → ∃ e, fn k = .error e := by
  obtain ⟨hc, hs, hok⟩ := retryLoop_bound fn 3 baseDelay 3 0 []
  refine ⟨by simpa [retryWithBackoff] using hc, by simpa [retryWithBackoff] using hs, ?_⟩
  intro v hv
  obtain ⟨hlt, hlast, hall⟩ := hok v hv
  exact ⟨hlast, fun k hk => hall k (Nat.zero_le k) hk⟩

/-- Behaviour that succeeds immediately with value 5. -/
def fnImmediateOk : Nat → Except ErrMsg Nat := fun _ => .ok 5

/-- Witness for C10 at the concrete behaviour `fnImmediateOk`. -/
theorem retry_terminates_within_budget_witness :
    (retryWithBackoff fnImmediateOk 3 1000).calls ≤ 3 ∧
    fnImmediateOk ((retryWithBackoff fnImmediateOk 3 1000).calls - 1) = .ok 5 :=
  ⟨(retry_terminates_within_budget fnImmediateOk 1000).1,
    ((retry_terminates_within_budget fnImmediateOk 1000).2.2 5 (by decide)).1⟩

/-- The `Error` value produced by `handleError(operation, error)`
(`exchange.ts:436-460`): one constructor per formatted message the source can
build, in the order of its `if` chain; `generic` is the final
`new Error('[operation] message')` passthrough carrying the original
message. -/
inductive HandledError where
  | invalidKey (operation : String)
  | timeSync (operation : String)
  | ipNotWhitelisted (operation : String)
  | insufficientBalance (operation : String)
  | rateLimitExceeded (operation : String)
  | generic (operation : String) (e : ErrMsg)
  deriving DecidableEq, Repr

/-- Source function `handleError` from `exchange.ts:436-460`: classifies an error by the
first matching message substring among `'Invalid API-key'`, `'Timestamp'`,
`'IP'`, `'insufficient balance'`, `'rate limit'`, else passes the original
message through. -/
def handleError (operation : String) (e : ErrMsg) : HandledError :=
  if e.invalidApiKey then .invalidKey operation
  else if e.hasTimestampWord then .timeSync operation
  else if e.hasIPWord then .ipNotWhitelisted operation
  else if e.insufficientBalance then .insufficientBalance operation
  else if e.rateLimit then .rateLimitExceeded operation
  else .generic operation e

/-- The message of the `new Error('Max retries exceeded')` thrown when the
retry loop exits: it contains none of the scanned substrings. -/
def maxRetriesExceededMsg : ErrMsg := ⟨false, false, false, false, false, false, 999⟩

/-- Observable outcome of one public `ExchangeAPI` operation in non-mock
mode: the value returned or error thrown, the number of raw exchange
requests issued, and the sleeps performed by the retry layer. -/
structure OpRun (σ : Type) where
  result : Except HandledError σ
  rawCalls : Nat
  sleeps : List Nat
  deriving DecidableEq, Repr

/-- Common shape of every non-mock `ExchangeAPI` operation except
`fetchPositions` (`exchange.ts:124-355`): the raw exchange request is issued
only via `this.retryWithBackoff(...)` with the default parameters, the raw
result is transformed, and a caught error is rethrown as
`handleError(operation, error)`. -/
def runThroughRetry {ρ σ : Type} (operation : String) (transform : ρ → σ)
    (raw : Nat → Except ErrMsg ρ) : OpRun σ :=
  match retryWithBackoff raw 3 1000 with
  | ⟨.ok v, calls, sleeps⟩ => ⟨.ok (transform v), calls, sleeps⟩
  | ⟨.error (.thrown e), calls, sleeps⟩ => ⟨.error (handleError operation e), calls, sleeps⟩
  | ⟨.error .maxRetriesExceeded, calls, sleeps⟩ =>
    ⟨.error (handleError operation maxRetriesExceededMsg), calls, sleeps⟩

/-- The raw `balance` object returned by `exchange.fetchBalance()`: the
`free`, `used` and `total` currency→amount mappings, as association lists. -/
structure RawBalance where
  free : List (String × ℚ)
  used : List (String × ℚ)
  total : List (String × ℚ)
  deriving DecidableEq, Repr

/-- A `Balance` record (`exchange.ts:33-38`). -/
structure Balance where
  currency : String
  free : ℚ
  used : ℚ
  total : ℚ
  deriving DecidableEq, Repr

/-- The transform in `fetchBalance` (`exchange.ts:132-139`): keep the
entries of `balance.total` with a positive amount and default missing
`free`/`used` entries to 0. -/
def balancesOfRaw (rb : RawBalance) : List Balance :=
  (rb.total.filter fun p => 0 < p.2).map fun p =>
    ⟨p.1, ((rb.free.lookup p.1).getD 0), ((rb.used.lookup p.1).getD 0), p.2⟩

/-- The raw ticker returned by `exchange.fetchTicker`: its `last` price,
absent (or zero) when the exchange reports none. -/
structure RawTicker where
  last : Option ℚ
  deriving DecidableEq, Repr

/-- The transform in `fetchPrice` (`exchange.ts:155`): `ticker.last || 0`. -/
def priceOfTicker (t : RawTicker) : ℚ := t.last.getD 0

/-- The raw order object returned by ccxt's `createOrder` / `fetchOrder` /
`fetchOpenOrders`, with the fields the wrapper reads; optional fields are the
ones the wrapper defaults with `|| 0` / `|| Date.now()`. -/
structure RawOrder where
  id : String
  symbol : String
  type : String
  side : String
  price : Option ℚ
  amount : ℚ
  filled : Option ℚ
  remaining : Option ℚ
  status : String
  timestamp : Option Nat
  deriving DecidableEq, Repr

/-- An `Order` record (`exchange.ts:51-62`). -/
structure Order where
  id : String
  symbol : String
  type : String
  side : String
  price : ℚ
  amount : ℚ
  filled : ℚ
  remaining : ℚ
  status : String
  timestamp : Nat
  deriving DecidableEq, Repr

/-- The order transform used by `createOrder`, `createStopLoss`,
`createTakeProfit`, `fetchOpenOrders` and `fetchOrder`
(e.g. `exchange.ts:184-195`): default `price`, `filled`, `remaining` to 0 and
`timestamp` to `Date.now()` (passed in as `now`). -/
def orderOfRaw (now : Nat) (o : RawOrder) : Order :=
  ⟨o.id, o.symbol, o.type, o.side, o.price.getD 0, o.amount,
    o.filled.getD 0, o.remaining.getD 0, o.status, o.timestamp.getD now⟩

/-- The raw position object returned by `exchange.fetchPositions`. -/
structure RawPosition where
  symbol : String
  side : String
  contracts : ℚ
  entryPrice : ℚ
  markPrice : ℚ
  unrealizedPnl : ℚ
  leverage : ℚ
  liquidationPrice : Option ℚ
  deriving DecidableEq, Repr

/-- A `Position` record of the exchange wrapper (`exchange.ts:40-49`). -/
structure ExchangePosition where
  symbol : String
  side : String
  contracts : ℚ
  entryPrice : ℚ
  markPrice : ℚ
  unrealizedPnl : ℚ
  leverage : ℚ
  liquidationPrice : Option ℚ
  deriving DecidableEq, Repr

/-- The transform in `fetchPositions` (`exchange.ts:369-380`): keep positions
with `contracts > 0`. -/
def positionsOfRaw (l : List RawPosition) : List ExchangePosition :=
  (l.filter fun p => 0 < p.contracts).map fun p =>
    ⟨p.symbol, p.side, p.contracts, p.entryPrice, p.markPrice,
      p.unrealizedPnl, p.leverage, p.liquidationPrice⟩

/-- Operation `fetchBalance` in non-mock mode (`exchange.ts:124-143`), as a function of
the raw exchange behaviour. -/
def fetchBalance (raw : Nat → Except ErrMsg RawBalance) : OpRun (List Balance) :=
  runThroughRetry "fetchBalance" balancesOfRaw raw

/-- Operation `fetchPrice` in non-mock mode (`exchange.ts:148-159`). -/
def fetchPrice (raw : Nat → Except ErrMsg RawTicker) : OpRun ℚ :=
  runThroughRetry "fetchPrice" priceOfTicker raw

/-- Operation `createOrder` in non-mock mode (`exchange.ts:164-199`). -/
def createOrder (now : Nat) (raw : Nat → Except ErrMsg RawOrder) : OpRun Order :=
  runThroughRetry "createOrder" (orderOfRaw now) raw

/-- Operation `createStopLoss` in non-mock mode (`exchange.ts:204-241`). -/
def createStopLoss (now : Nat) (raw : Nat → Except ErrMsg RawOrder) : OpRun Order :=
  runThroughRetry "createStopLoss" (orderOfRaw now) raw

/-- Operation `createTakeProfit` in non-mock mode (`exchange.ts:246-282`). -/
def createTakeProfit (now : Nat) (raw : Nat → Except ErrMsg RawOrder) : OpRun Order :=
  runThroughRetry "createTakeProfit" (orderOfRaw now) raw

/-- Operation `cancelOrder` in non-mock mode (`exchange.ts:287-299`): returns no
value. -/
def cancelOrder (raw : Nat → Except ErrMsg Unit) : OpRun Unit :=
  runThroughRetry "cancelOrder" id raw

/-- Operation `fetchOpenOrders` in non-mock mode (`exchange.ts:304-327`). -/
def fetchOpenOrders (now : Nat) (raw : Nat → Except ErrMsg (List RawOrder)) :
    OpRun (List Order) :=
  runThroughRetry "fetchOpenOrders" (List.map (orderOfRaw now)) raw

/-- Operation `fetchOrder` in non-mock mode (`exchange.ts:332-355`). -/
def fetchOrder (now : Nat) (raw : Nat → Except ErrMsg RawOrder) : OpRun Order :=
  runThroughRetry "fetchOrder" (orderOfRaw now) raw

/-- Operation `fetchPositions` in non-mock mode (`exchange.ts:360-386`): unlike every
other operation its `catch` block does not rethrow — it logs a warning and
returns the empty list. -/
def fetchPositions (raw : Nat → Except ErrMsg (List RawPosition)) :
    OpRun (List ExchangePosition) :=
  match retryWithBackoff raw 3 1000 with
  | ⟨.ok v, calls, sleeps⟩ => ⟨.ok (positionsOfRaw v), calls, sleeps⟩
  | ⟨.error _, calls, sleeps⟩ => ⟨.ok [], calls, sleeps⟩

/-- Helper: any operation of the `runThroughRetry` shape issues exactly the
raw exchange requests that `retryWithBackoff` issues, and performs exactly
its sleeps. -/
theorem runThroughRetry_rawCalls {ρ σ : Type} (operation : String)
    (transform : ρ → σ) (raw : Nat → Except ErrMsg ρ) :
    (runThroughRetry operation transform raw).rawCalls =
      (retryWithBackoff raw 3 1000).calls ∧
    (runThroughRetry operation transform raw).sleeps =
      (retryWithBackoff raw 3 1000).sleeps := by
  rcases h : retryWithBackoff raw 3 1000 with ⟨res, calls, sleeps⟩
  rcases res with e | v
  · rcases e with e | _ <;> simp [runThroughRetry, h]
  · simp [runThroughRetry, h]

/-- Helper: any operation of the `runThroughRetry` shape surfaces only
errors produced by `handleError` for its operation name. -/
theorem runThroughRetry_error {ρ σ : Type} (operation : String)
    (transform : ρ → σ) (raw : Nat → Except ErrMsg ρ) (he : HandledError)
    (h : (runThroughRetry operation transform raw).result = .error he) :
    ∃ e, he = handleError operation e := by
  rcases hr : retryWithBackoff raw 3 1000 with ⟨res, calls, sleeps⟩
  rcases res with e | v
  · rcases e with e | _ <;> simp [runThroughRetry, hr] at h
    · exact ⟨e, h.symm⟩
    · exact ⟨maxRetriesExceededMsg, h.symm⟩
  · simp [runThroughRetry, hr] at h

/-- C8: every public `ExchangeAPI` operation in non-mock mode issues its raw
exchange requests only via `retryWithBackoff` with the default parameters —
for every behaviour of the raw adapter call, the number of raw requests an
operation issues and the sleeps it performs are exactly those of
`retryWithBackoff` on that behaviour, for all nine operations. -/
theorem ops_route_only_through_retryWithBackoff :
    (∀ raw : Nat → Except ErrMsg RawBalance,
      (fetchBalance raw).rawCalls = (retryWithBackoff raw 3 1000).calls ∧
      (fetchBalance raw).sleeps = (retryWithBackoff raw 3 1000).sleeps) ∧
    (∀ raw : Nat → Except ErrMsg RawTicker,
      (fetchPrice raw).rawCalls = (retryWithBackoff raw 3 1000).calls ∧
      (fetchPrice raw).sleeps = (retryWithBackoff raw 3 1000).sleeps) ∧
    (∀ (now : Nat) (raw : Nat → Except ErrMsg RawOrder),
      (createOrder now raw).rawCalls = (retryWithBackoff raw 3 1000).calls ∧
      (createOrder now raw).sleeps = (retryWithBackoff raw 3 1000).sleeps) ∧
    (∀ (now : Nat) (raw : Nat → Except ErrMsg RawOrder),
      (createStopLoss now raw).rawCalls = (retryWithBackoff raw 3 1000).calls ∧
      (createStopLoss now raw).sleeps = (retryWithBackoff raw 3 1000).sleeps) ∧
    (∀ (now : Nat) (raw : Nat → Except ErrMsg RawOrder),
      (createTakeProfit now raw).rawCalls = (retryWithBackoff raw 3 1000).calls ∧
      (createTakeProfit now raw).sleeps = (retryWithBackoff raw 3 1000).sleeps) ∧
    (∀ raw : Nat → Except ErrMsg Unit,
      (cancelOrder raw).rawCalls = (retryWithBackoff raw 3 1000).calls ∧
      (cancelOrder raw).sleeps = (retryWithBackoff raw 3 1000).sleeps) ∧
    (∀ (now : Nat) (raw : Nat → Except ErrMsg (List RawOrder)),
      (fetchOpenOrders now raw).rawCalls = (retryWithBackoff raw 3 1000).calls ∧
      (fetchOpenOrders now raw).sleeps = (retryWithBackoff raw 3 1000).sleeps) ∧
    (∀ (now : Nat) (raw : Nat → Except ErrMsg RawOrder),
      (fetchOrder now raw).rawCalls = (retryWithBackoff raw 3 1000).calls ∧
      (fetchOrder now raw).sleeps = (retryWithBackoff raw 3 1000).sleeps) ∧
    (∀ raw : Nat → Except ErrMsg (List RawPosition),
      (fetchPositions raw).rawCalls = (retryWithBackoff raw 3 1000).calls ∧
      (fetchPositions raw).sleeps = (retryWithBackoff raw 3 1000).sleeps) := by
  refine ⟨fun raw => runThroughRetry_rawCalls _ _ raw,
    fun raw => runThroughRetry_rawCalls _ _ raw,
    fun now raw => runThroughRetry_rawCalls _ _ raw,
    fun now raw => runThroughRetry_rawCalls _ _ raw,
    fun now raw => runThroughRetry_rawCalls _ _ raw,
    fun raw => runThroughRetry_rawCalls _ _ raw,
    fun now raw => runThroughRetry_rawCalls _ _ raw,
    fun now raw => runThroughRetry_rawCalls _ _ raw,
    fun raw => ?_⟩
  rcases h : retryWithBackoff raw 3 1000 with ⟨res, calls, sleeps⟩
  rcases res with e | v <;> simp [fetchPositions, h]

/-- C7 counterexample: `fetchPositions` is listed among the operations whose
failing calls surface a typed error kind, but its `catch` block swallows
every error: with a raw adapter call that fails on every attempt with a
network-style error, `fetchPositions` returns `.ok []` — no error of any
kind reaches the caller — after the three raw attempts all failed. -/
theorem fetchPositions_swallows_failures :
    (fetchPositions fun _ => .error transientErr).result = .ok [] ∧
    (fetchPositions fun _ => .error transientErr).rawCalls = 3 :=
  ⟨by decide, by decide⟩

/-- C7 (amended): every failing call of `fetchBalance`, `fetchPrice`,
`createOrder`, `createStopLoss`, `createTakeProfit`, `cancelOrder`,
`fetchOpenOrders` and `fetchOrder` fails with the `Error` built by
`handleError`, which classifies by the first matching message substring into
one of the six shapes invalid-API-key, time-sync, IP-not-whitelisted,
insufficient-balance, rate-limit-exceeded, or generic passthrough of the
original message (no NETWORK or REJECTED classification exists);
`fetchPositions` never fails — it returns a list even when every raw attempt
errored. -/
theorem ops_fail_via_handleError :
    (∀ (raw : Nat → Except ErrMsg RawBalance) (he : HandledError),
      (fetchBalance raw).result = .error he → ∃ e, he = handleError "fetchBalance" e) ∧
    (∀ (raw : Nat → Except ErrMsg RawTicker) (he : HandledError),
      (fetchPrice raw).result = .error he → ∃ e, he = handleError "fetchPrice" e) ∧
    (∀ (now : Nat) (raw : Nat → Except ErrMsg RawOrder) (he : HandledError),
      (createOrder now raw).result = .error he → ∃ e, he = handleError "createOrder" e) ∧
    (∀ (now : Nat) (raw : Nat → Except ErrMsg RawOrder) (he : HandledError),
      (createStopLoss now raw).result = .error he →
        ∃ e, he = handleError "createStopLoss" e) ∧
    (∀ (now : Nat) (raw : Nat → Except ErrMsg RawOrder) (he : HandledError),
      (createTakeProfit now raw).result = .error he →
        ∃ e, he = handleError "createTakeProfit" e) ∧
    (∀ (raw : Nat → Except ErrMsg Unit) (he : HandledError),
      (cancelOrder raw).result = .error he → ∃ e, he = handleError "cancelOrder" e) ∧
    (∀ (now : Nat) (raw : Nat → Except ErrMsg (List RawOrder)) (he : HandledError),
      (fetchOpenOrders now raw).result = .error he →
        ∃ e, he = handleError "fetchOpenOrders" e) ∧
    (∀ (now : Nat) (raw : Nat → Except ErrMsg RawOrder) (he : HandledError),
      (fetchOrder now raw).result = .error he → ∃ e, he = handleError "fetchOrder" e) ∧
    (∀ raw : Nat → Except ErrMsg (List RawPosition),
      ∃ l, (fetchPositions raw).result = .ok l) ∧
    ∀ (operation : String) (e : ErrMsg), e.invalidApiKey = false →
      e.hasTimestampWord = false → e.hasIPWord = false →
      e.insufficientBalance = false → e.rateLimit = false →
      handleError operation e = .generic operation e := by
  refine ⟨fun raw he h => runThroughRetry_error _ _ raw he h,
    fun raw he h => runThroughRetry_error _ _ raw he h,
    fun now raw he h => runThroughRetry_error _ _ raw he h,
    fun now raw he h => runThroughRetry_error _ _ raw he h,
    fun now raw he h => runThroughRetry_error _ _ raw he h,
    fun raw he h => runThroughRetry_error _ _ raw he h,
    fun now raw he h => runThroughRetry_error _ _ raw he h,
    fun now raw he h => runThroughRetry_error _ _ raw he h,
    fun raw => ?_, ?_⟩
  · rcases h : retryWithBackoff raw 3 1000 with ⟨res, calls, sleeps⟩
    rcases res with e | v <;> simp [fetchPositions, h]
  · intro operation e h1 h2 h3 h4 h5
    simp [handleError, h1, h2, h3, h4, h5]

/-- Witness for the amended C7: a `fetchBalance` call that keeps failing
with an authentication error surfaces exactly the `handleError`
classification of that error. -/
theorem ops_fail_via_handleError_witness :
    ∃ e, HandledError.invalidKey "fetchBalance" = handleError "fetchBalance" e :=
  ops_fail_via_handleError.1 (fun _ => .error authErr)
    (.invalidKey "fetchBalance") (by decide)

/-- Reject reasons of the Risk Manager (spec §4.1). -/
inductive RejectReason where
  | BELOW_MIN_BALANCE
  | MAX_POSITIONS_REACHED
  | LEVERAGE_NOT_ALLOWED
  | DAILY_LOSS_LIMIT_HIT
  | INVALID_STOP_DISTANCE
  deriving DecidableEq, Repr

/-- Record `RiskConfig` (spec §3): process-wide risk parameters. -/
structure RiskConfig where
  maxPositionSizePercent : ℚ
  maxDailyLossPercent : ℚ
  maxOpenPositions : Nat
  allowedLeverage : List Nat
  minAccountBalance : ℚ
  deriving DecidableEq, Repr

/-- Trade direction of a signal consumed by the Risk Manager. -/
inductive SignalAction where
  | BUY
  | SELL
  deriving DecidableEq, Repr

/-- A `Signal` as consumed by the Risk Manager (spec §3): a `HOLD` signal
never reaches it, so only `BUY`/`SELL` are modelled. -/
structure RMSignal where
  symbol : String
  action : SignalAction
  confidence : ℚ
  entry : ℚ
  stopLoss : ℚ
  takeProfits : List ℚ
  leverage : Nat
  deriving DecidableEq, Repr

/-- The result record of `evaluate` (spec §4.1):
`{allowed: bool, reason?, adjustedSize?}`. -/
structure EvalOutcome where
  allowed : Bool
  reason : Option RejectReason
  adjustedSize : Option ℚ
  deriving DecidableEq, Repr

/-- Modelled from the spec: the Risk Manager module
(`src/lib/trading/risk-manager.ts`) is planned in
`docs/AUTO_TRADING_IMPLEMENTATION_PLAN.md` but absent from the source tree;
`evaluate` follows spec §4.1 literally — the five checks in order,
short-circuiting on the first failure, with
`riskPerUnit = |entry − stopLoss|`,
`maxRiskAmount = currentBalance × maxPositionSizePercent / 100`,
`adjustedSize = maxRiskAmount / riskPerUnit`, and rejection with
`INVALID_STOP_DISTANCE` when `riskPerUnit = 0`. -/
def evaluate (cfg : RiskConfig) (signal : RMSignal) (currentBalance : ℚ)
    (openPositionsCount : Nat) (dailyRealizedPnl : ℚ) : EvalOutcome :=
  if currentBalance < cfg.minAccountBalance then
    ⟨false, some .BELOW_MIN_BALANCE, none⟩
  else if ¬ openPositionsCount < cfg.maxOpenPositions then
    ⟨false, some .MAX_POSITIONS_REACHED, none⟩
  else if signal.leverage ∉ cfg.allowedLeverage then
    ⟨false, some .LEVERAGE_NOT_ALLOWED, none⟩
  else if currentBalance * cfg.maxDailyLossPercent / 100 ≤ -dailyRealizedPnl then
    ⟨false, some .DAILY_LOSS_LIMIT_HIT, none⟩
  else if |signal.entry - signal.stopLoss| = 0 then
    ⟨false, some .INVALID_STOP_DISTANCE, none⟩
  else
    ⟨true, none,
      some (currentBalance * cfg.maxPositionSizePercent / 100 / |signal.entry - signal.stopLoss|)⟩

/-- C4: every approved signal gets
`adjustedSize = (currentBalance × maxPositionSizePercent / 100) / |entry − stopLoss|`,
hence `adjustedSize × |entry − stopLoss| ≤ currentBalance ×
maxPositionSizePercent / 100`; and a signal whose entry equals its stop is
never approved — when the four earlier checks pass it is rejected with
`INVALID_STOP_DISTANCE` rather than divided by zero. -/
theorem evaluate_position_sizing (cfg : RiskConfig) (signal : RMSignal)
    (currentBalance dailyRealizedPnl : ℚ) (openPositionsCount : Nat) :
    ((evaluate cfg signal currentBalance openPositionsCount dailyRealizedPnl).allowed = true →
      (evaluate cfg signal currentBalance openPositionsCount dailyRealizedPnl).adjustedSize =
        some (currentBalance * cfg.maxPositionSizePercent / 100 /
          |signal.entry - signal.stopLoss|) ∧
      ∀ q, (evaluate cfg signal currentBalance openPositionsCount
          dailyRealizedPnl).adjustedSize = some q →
        q * |signal.entry - signal.stopLoss| ≤
          currentBalance * cfg.maxPositionSizePercent / 100) ∧
    (signal.entry = signal.stopLoss →
      (evaluate cfg signal currentBalance openPositionsCount dailyRealizedPnl).allowed = false ∧
      (¬ currentBalance < cfg.minAccountBalance →
        openPositionsCount < cfg.maxOpenPositions →
        signal.leverage ∈ cfg.allowedLeverage →
        ¬ currentBalance * cfg.maxDailyLossPercent / 100 ≤ -dailyRealizedPnl →
        (evaluate cfg signal currentBalance openPositionsCount dailyRealizedPnl).reason =
          some .INVALID_STOP_DISTANCE)) := by
  unfold evaluate
  by_cases h1 : currentBalance < cfg.minAccountBalance
  · rw [if_pos h1]
    exact ⟨fun h => by simp at h, fun _ => ⟨rfl, fun hc _ _ _ => absurd h1 hc⟩⟩
  rw [if_neg h1]
  by_cases h2 : ¬ openPositionsCount < cfg.maxOpenPositions
  · rw [if_pos h2]
    exact ⟨fun h => by simp at h, fun _ => ⟨rfl, fun _ hc _ _ => absurd hc h2⟩⟩
  rw [if_neg h2]
  by_cases h3 : signal.leverage ∉ cfg.allowedLeverage
  · rw [if_pos h3]
    exact ⟨fun h => by simp at h, fun _ => ⟨rfl, fun _ _ hc _ => absurd hc h3⟩⟩
  rw [if_neg h3]
  by_cases h4 : currentBalance * cfg.maxDailyLossPercent / 100 ≤ -dailyRealizedPnl
  · rw [if_pos h4]
    exact ⟨fun h => by simp at h, fun _ => ⟨rfl, fun _ _ _ hc => absurd h4 hc⟩⟩
  rw [if_neg h4]
  by_cases h5 : |signal.entry - signal.stopLoss| = 0
  · rw [if_pos h5]
    exact ⟨fun h => by simp at h, fun _ => ⟨rfl, fun _ _ _ _ => rfl⟩⟩
  rw [if_neg h5]
  dsimp only
  refine ⟨fun _ => ⟨rfl, ?_⟩, fun hes => absurd (by simp [hes]) h5⟩
  intro q hq
  rw [Option.some.injEq] at hq
  rw [← hq, div_mul_cancel₀ _ h5]

/-- A concrete risk configuration for the C4 witness: 2% risk per trade, 5%
daily loss cap, at most 3 open positions, leverage 5 allowed, 100 minimum
balance. -/
def cfgW : RiskConfig := ⟨2, 5, 3, [5], 100⟩

/-- A concrete approvable signal for the C4 witness: entry 100, stop 90. -/
def signalW : RMSignal := ⟨"BTC/USDT", .BUY, 80, 100, 90, [110, 120], 5⟩

/-- A concrete degenerate signal for the C4 witness: entry = stop = 100. -/
def signalZeroStopW : RMSignal := ⟨"BTC/USDT", .BUY, 80, 100, 100, [110, 120], 5⟩

/-- Witness for C4: with balance 1000 the approvable signal is sized to
`adjustedSize = 2` and `2 × 10 ≤ 20`; the degenerate signal is rejected with
`INVALID_STOP_DISTANCE`. -/
theorem evaluate_position_sizing_witness :
    (evaluate cfgW signalW 1000 0 0).adjustedSize =
      some (1000 * cfgW.maxPositionSizePercent / 100 / |signalW.entry - signalW.stopLoss|) ∧
    (∀ q, (evaluate cfgW signalW 1000 0 0).adjustedSize = some q →
      q * |signalW.entry - signalW.stopLoss| ≤ 1000 * cfgW.maxPositionSizePercent / 100) ∧
    (evaluate cfgW signalZeroStopW 1000 0 0).allowed = false ∧
    (evaluate cfgW signalZeroStopW 1000 0 0).reason = some .INVALID_STOP_DISTANCE := by
  have hallow : (evaluate cfgW signalW 1000 0 0).allowed = true := by
    norm_num [evaluate, cfgW, signalW]
  obtain ⟨h1, h2⟩ := (evaluate_position_sizing cfgW signalW 1000 0 0).1 hallow
  obtain ⟨h3, h4⟩ := (evaluate_position_sizing cfgW signalZeroStopW 1000 0 0).2 rfl
  refine ⟨h1, h2, h3, h4 ?_ ?_ ?_ ?_⟩
  · norm_num [cfgW]
  · norm_num [cfgW]
  · simp [cfgW, signalZeroStopW]
  · norm_num [cfgW]

/-- Direction of a monitored position. -/
inductive Side where
  | LONG
  | SHORT
  deriving DecidableEq, Repr

/-- A take-profit target of a monitored position (plan document §5). -/
structure TakeProfitTarget where
  level : Nat
  price : ℚ
  sizePercent : ℚ
  filled : Bool
  deriving DecidableEq, Repr

/-- A monitored `Position` (plan document §5 / spec §3), restricted to the
fields the Position Monitor's checks read or write. -/
structure MPosition where
  id : String
  symbol : String
  side : Side
  entryPrice : ℚ
  size : ℚ
  remainingSize : ℚ
  stopLoss : ℚ
  takeProfits : List TakeProfitTarget
  deriving DecidableEq, Repr

/-- Close reasons used by the Position Monitor. -/
inductive CloseReason where
  | STOP_LOSS
  | TAKE_PROFIT
  | SIGNAL_REVERSE
  deriving DecidableEq, Repr

/-- One observable action the Position Monitor can take on a position during
a tick: a full close order for a given amount, a partial close at a take
profit, or a trailing-stop move. -/
inductive MonitorAction where
  | closeOrder (symbol : String) (side : Side) (amount : ℚ)
      (reason : CloseReason) (price : ℚ)
  | closeAtTakeProfit (price : ℚ)
  | setStop (newStop : ℚ)
  deriving DecidableEq, Repr

/-- Predicate `shouldStopLoss` from the plan document
(`AUTO_TRADING_IMPLEMENTATION_PLAN.md:263-269`): LONG triggers when
`currentPrice ≤ stopLoss`, SHORT when `currentPrice ≥ stopLoss`. -/
def shouldStopLoss (p : MPosition) (currentPrice : ℚ) : Bool :=
  match p.side with
  | .LONG => decide (currentPrice ≤ p.stopLoss)
  | .SHORT => decide (p.stopLoss ≤ currentPrice)

/-- Predicate `shouldTakeProfit` from the plan document
(`AUTO_TRADING_IMPLEMENTATION_PLAN.md:271-280`): true when any unfilled
target is reached. -/
def shouldTakeProfit (p : MPosition) (currentPrice : ℚ) : Bool :=
  p.takeProfits.any fun tp =>
    !tp.filled &&
      (match p.side with
       | .LONG => decide (tp.price ≤ currentPrice)
       | .SHORT => decide (currentPrice ≤ tp.price))

/-- Trailing-stop parameters.  Modelled from the spec (§4.3 step 4): the
plan document's monitor calls `shouldUpdateTrailingStop` /
`calculateTrailingStop` / `updateStopLoss` without giving their bodies;
the spec prescribes an activation threshold beyond entry and a candidate
stop at a fixed offset behind the best price seen. -/
structure TrailConfig where
  enabled : Bool
  activationDistance : ℚ
  trailOffset : ℚ
  deriving DecidableEq, Repr

/-- Modelled from the spec: the candidate trailing stop sits a fixed offset
behind the best price seen (below it for LONG, above it for SHORT). -/
def calculateTrailingStop (trail : TrailConfig) (p : MPosition) (bestPrice : ℚ) : ℚ :=
  match p.side with
  | .LONG => bestPrice - trail.trailOffset
  | .SHORT => bestPrice + trail.trailOffset

/-- Modelled from the spec: a candidate stop tightens iff it moves in the
profit-protecting direction relative to the current `stopLoss` — strictly up
for LONG, strictly down for SHORT. -/
def tightensStop (p : MPosition) (candidate : ℚ) : Bool :=
  match p.side with
  | .LONG => decide (p.stopLoss < candidate)
  | .SHORT => decide (candidate < p.stopLoss)

/-- Modelled from the spec: the trailing stop updates only when trailing is
enabled, the best price seen has moved favourably beyond the activation
threshold since entry, and the recomputed candidate tightens the current
stop. -/
def shouldUpdateTrailingStop (trail : TrailConfig) (p : MPosition)
    (bestPrice : ℚ) : Bool :=
  trail.enabled &&
    (match p.side with
     | .LONG => decide (p.entryPrice + trail.activationDistance ≤ bestPrice)
     | .SHORT => decide (bestPrice ≤ p.entryPrice - trail.activationDistance)) &&
    tightensStop p (calculateTrailingStop trail p bestPrice)

/-- Setter `updateStopLoss`: store the new stop on the position. -/
def updateStopLoss (p : MPosition) (newStop : ℚ) : MPosition :=
  { p with stopLoss := newStop }

/-- The per-position body of `checkAllPositions` from the plan document
(`AUTO_TRADING_IMPLEMENTATION_PLAN.md:232-261`), with the trailing-stop
branch modelled from the spec as above: (1) stop-loss check first — on
trigger, close the full `remainingSize` with reason `STOP_LOSS` at the
current price and `continue`, skipping every remaining check; otherwise
(2) take-profit check, (3) trailing-stop update, (4) signal-reversal check.
Returns the actions taken for this position this tick and the (possibly
trailing-updated) position. -/
def checkPosition (trail : TrailConfig) (hasReverseSignal : Bool)
    (p : MPosition) (currentPrice bestPrice : ℚ) :
    List MonitorAction × MPosition :=
  if shouldStopLoss p currentPrice then
    ([.closeOrder p.symbol p.side p.remainingSize .STOP_LOSS currentPrice], p)
  else
    let tpActs :=
      if shouldTakeProfit p currentPrice then [MonitorAction.closeAtTakeProfit currentPrice]
      else []
    let p1 :=
      if shouldUpdateTrailingStop trail p bestPrice then
        updateStopLoss p (calculateTrailingStop trail p bestPrice)
      else p
    let trailActs :=
      if shouldUpdateTrailingStop trail p bestPrice then
        [MonitorAction.setStop (calculateTrailingStop trail p bestPrice)]
      else []
    let revActs :=
      if hasReverseSignal then
        [MonitorAction.closeOrder p1.symbol p1.side p1.remainingSize .SIGNAL_REVERSE currentPrice]
      else []
    (tpActs ++ trailActs ++ revActs, p1)

/-- C5: in every monitor tick the stop-loss check runs first: it triggers
exactly when a LONG position sees `price ≤ stopLoss` or a SHORT position
sees `price ≥ stopLoss`, and on trigger the only action taken for the
position in that tick is a `closePosition(position, STOP_LOSS, price)` for
the full remaining size — no take-profit, trailing-stop or reversal check
runs, and the position record is left untouched. -/
theorem stop_loss_check_runs_first (trail : TrailConfig) (hasReverseSignal : Bool)
    (p : MPosition) (currentPrice bestPrice : ℚ) :
    (shouldStopLoss p currentPrice = true ↔
      (p.side = .LONG ∧ currentPrice ≤ p.stopLoss) ∨
      (p.side = .SHORT ∧ p.stopLoss ≤ currentPrice)) ∧
    (shouldStopLoss p currentPrice = true →
      checkPosition trail hasReverseSignal p currentPrice bestPrice =
        ([.closeOrder p.symbol p.side p.remainingSize .STOP_LOSS currentPrice], p)) := by
  constructor
  · unfold shouldStopLoss
    rcases hside : p.side <;> simp [hside]
  · intro h
    unfold checkPosition
    rw [if_pos h]

/-- A concrete LONG position for the C5 witness: entry 100, stop 90,
remaining size 2. -/
def positionW : MPosition :=
  ⟨"pos-1", "BTC/USDT", .LONG, 100, 2, 2, 90, [⟨1, 110, 50, false⟩, ⟨2, 120, 50, false⟩]⟩

/-- A disabled trailing configuration for the witnesses. -/
def trailOffW : TrailConfig := ⟨false, 5, 3⟩

/-- Witness for C5: at price 89 ≤ stop 90 the LONG witness position is
closed in full with reason `STOP_LOSS` and nothing else happens to it. -/
theorem stop_loss_check_runs_first_witness :
    checkPosition trailOffW true positionW 89 89 =
      ([.closeOrder "BTC/USDT" .LONG 2 .STOP_LOSS 89], positionW) :=
  (stop_loss_check_runs_first trailOffW true positionW 89 89).2 (by decide)

/-- Helper: one `checkPosition` step never moves a LONG stop down nor a
SHORT stop up, and never changes the side. -/
theorem checkPosition_stop_monotone (trail : TrailConfig) (hasReverseSignal : Bool)
    (p : MPosition) (currentPrice bestPrice : ℚ) :
    (checkPosition trail hasReverseSignal p currentPrice bestPrice).2.side = p.side ∧
    (p.side = .LONG →
      p.stopLoss ≤ (checkPosition trail hasReverseSignal p currentPrice bestPrice).2.stopLoss) ∧
    (p.side = .SHORT →
      (checkPosition trail hasReverseSignal p currentPrice bestPrice).2.stopLoss ≤ p.stopLoss) := by
  unfold checkPosition
  by_cases hsl : shouldStopLoss p currentPrice
  · rw [if_pos hsl]
    exact ⟨rfl, fun _ => le_refl _, fun _ => le_refl _⟩
  rw [if_neg hsl]
  dsimp only
  by_cases htr : shouldUpdateTrailingStop trail p bestPrice
  · rw [if_pos htr]
    have ht : tightensStop p (calculateTrailingStop trail p bestPrice) = true := by
      have := htr
      unfold shouldUpdateTrailingStop at this
      exact (Bool.and_eq_true _ _).mp this |>.2
    refine ⟨rfl, fun hside => ?_, fun hside => ?_⟩
    · unfold tightensStop at ht
      rw [hside] at ht
      simp only [decide_eq_true_eq] at ht
      exact le_of_lt ht
    · unfold tightensStop at ht
      rw [hside] at ht
      simp only [decide_eq_true_eq] at ht
      exact le_of_lt ht
  · rw [if_neg htr]
    exact ⟨rfl, fun _ => le_refl _, fun _ => le_refl _⟩

/-- One tick's inputs for a position: the current price, the best price seen
and whether the signal source currently reports the opposite action. -/
structure TickInput where
  currentPrice : ℚ
  bestPrice : ℚ
  hasReverseSignal : Bool
  deriving DecidableEq, Repr

/-- A sequence of monitor ticks applied to one position (the state the
monitor carries across ticks). -/
def runTicks (trail : TrailConfig) (p : MPosition) (ticks : List TickInput) : MPosition :=
  ticks.foldl (fun q t => (checkPosition trail t.hasReverseSignal q t.currentPrice t.bestPrice).2) p

/-- C6: across every sequence of monitor ticks the trailing-stop update only
tightens the stop: a LONG position's `stopLoss` never decreases and a SHORT
position's `stopLoss` never increases, because a candidate stop is applied
only when `tightensStop` holds. -/
theorem trailing_stop_never_loosens (trail : TrailConfig) (p : MPosition)
    (ticks : List TickInput) :
    (p.side = .LONG → p.stopLoss ≤ (runTicks trail p ticks).stopLoss) ∧
    (p.side = .SHORT → (runTicks trail p ticks).stopLoss ≤ p.stopLoss) := by
  induction ticks generalizing p with
  | nil => exact ⟨fun _ => le_refl _, fun _ => le_refl _⟩
  | cons t ts ih =>
    obtain ⟨hsd, hl, hs⟩ :=
      checkPosition_stop_monotone trail t.hasReverseSignal p t.currentPrice t.bestPrice
    obtain ⟨ihl, ihs⟩ :=
      ih ((checkPosition trail t.hasReverseSignal p t.currentPrice t.bestPrice).2)
    constructor
    · intro hside
      exact le_trans (hl hside) (ihl (hsd.trans hside))
    · intro hside
      exact le_trans (ihs (hsd.trans hside)) (hs hside)

/-- An enabled trailing configuration for the C6 witness: activates 5 above
entry, trails 3 behind the best price. -/
def trailOnW : TrailConfig := ⟨true, 5, 3⟩

/-- Witness for C6: over three ticks of rising then falling prices the LONG
witness position's stop only moves up (from 90 to 104 = 107 − 3). -/
theorem trailing_stop_never_loosens_witness :
    positionW.stopLoss ≤
      (runTicks trailOnW positionW [⟨105, 105, false⟩, ⟨107, 107, false⟩, ⟨95, 107, false⟩]).stopLoss ∧
    (runTicks trailOnW positionW [⟨105, 105, false⟩, ⟨107, 107, false⟩, ⟨95, 107, false⟩]).stopLoss = 104 :=
  ⟨(trailing_stop_never_loosens trailOnW positionW
      [⟨105, 105, false⟩, ⟨107, 107, false⟩, ⟨95, 107, false⟩]).1 rfl, by
    norm_num [runTicks, checkPosition, shouldStopLoss, shouldTakeProfit,
      shouldUpdateTrailingStop, calculateTrailingStop, tightensStop,
      updateStopLoss, trailOnW, positionW]⟩

/-- A component that enqueues exchange calls. -/
inductive Caller where
  | executionEngine
  | positionMonitor
  deriving DecidableEq, Repr

/-- One exchange call waiting in the serialization queue: who enqueued it,
how long the exchange request takes once started (ms), and the result or
error eventually delivered to that caller. -/
structure QueuedCall (α : Type) where
  caller : Caller
  duration : Nat
  outcome : α
  deriving DecidableEq, Repr

/-- Modelled from the spec: the serialization queue of the resilient request
layer (§4.4) is not implemented as a module in the source tree —
`exchange.ts` only sets ccxt's `enableRateLimit` flag; the plan document's
`RateLimiter` sketches a single worker that shifts tasks off a FIFO array
and sleeps 200 ms between them.  `processQueue spacing t queue` runs the
queued calls in order starting at time `t`: each entry is started, awaited
for its duration, and followed by the fixed inter-call sleep before the next
one starts.  It returns, in processing order, each call's caller, start time
and delivered outcome. -/
def processQueue {α : Type} (spacing : Nat) : Nat → List (QueuedCall α) → List (Caller × Nat × α)
  | _, [] => []
  | t, c :: rest => (c.caller, t, c.outcome) :: processQueue spacing (t + c.duration + spacing) rest

/-- Modelled from the spec: the whole queue run with the default minimum
inter-call spacing of 200 ms. -/
def rateLimiterRun {α : Type} (queue : List (QueuedCall α)) (t0 : Nat) :
    List (Caller × Nat × α) :=
  processQueue 200 t0 queue

/-- Helper: `processQueue` preserves the enqueue order of callers and
delivers each call its own outcome, and consecutive start times are at least
`spacing` apart. -/
theorem processQueue_spec {α : Type} (spacing : Nat) :
    ∀ (queue : List (QueuedCall α)) (t0 : Nat),
      (processQueue spacing t0 queue).map Prod.fst = queue.map QueuedCall.caller ∧
      (processQueue spacing t0 queue).map (fun x => x.2.2) = queue.map QueuedCall.outcome ∧
      List.Chain' (fun a b => a + spacing ≤ b)
        ((processQueue spacing t0 queue).map fun x => x.2.1) := by
  intro queue
  induction queue with
  | nil => intro t0; simp [processQueue]
  | cons c rest ih =>
    intro t0
    obtain ⟨h1, h2, h3⟩ := ih (t0 + c.duration + spacing)
    refine ⟨by simp [processQueue, h1], by simp [processQueue, h2], ?_⟩
    rw [processQueue]
    rcases hrest : rest with _ | ⟨c2, rest2⟩
    · simp [processQueue]
    · rw [← hrest]
      apply List.chain'_cons'.mpr
      refine ⟨?_, h3⟩
      intro y hy
      subst hrest
      rw [processQueue] at hy
      simp at hy
      dsimp only
      omega

/-- C9: every exchange call, whichever component enqueued it, goes through
the single FIFO queue: the calls run in exactly their enqueue order
regardless of caller, each caller is delivered its own call's outcome, and
consecutive calls start at least 200 ms apart. -/
theorem queue_fifo_ordering_and_spacing {α : Type}
    (queue : List (QueuedCall α)) (t0 : Nat) :
    (rateLimiterRun queue t0).map Prod.fst = queue.map QueuedCall.caller ∧
    (rateLimiterRun queue t0).map (fun x => x.2.2) = queue.map QueuedCall.outcome ∧
    List.Chain' (fun a b => a + 200 ≤ b)
      ((rateLimiterRun queue t0).map fun x => x.2.1) :=
  processQueue_spec 200 queue t0

end DMOR
